import Mathlib

/-!
Verification of the swipelime-client-node task reconciliation engine
(`src/ServiceHandler.ts`, `src/index.ts`, `src/types.ts`) against its
natural-language specification.

The engine receives full snapshots of a remote work queue, diffs them against
a local cache, classifies each new item, auto-dispositions unrecognized ones,
and emits the deliverable rest.  A debounced queue serializes reconciliation
passes, and a periodic check defers items that sat in the cache too long.
All definitions below are direct shallow embeddings of the TypeScript source;
line references point into `src/ServiceHandler.ts` unless said otherwise.
-/

namespace Swipelime

/-- The recognized event sub-kinds: the `eventTypes` array of `src/types.ts`. -/
def eventTypes : List String :=
  ["test",
   "customer-joined-table",
   "order-items-added",
   "order-items-confirmed",
   "order-items-cancelled",
   "order-items-changed",
   "order-items-moved",
   "payment-requested",
   "payment-request-cancelled",
   "order-items-payment-requested",
   "order-items-payment-confirmed",
   "order-items-payment-cancelled",
   "universal-menu-elements-added",
   "universal-menu-elements-updated",
   "universal-menu-elements-removed",
   "tables-added",
   "tables-updated",
   "tables-removed"]

/-- The recognized command sub-kinds: the `commandTypes` array of `src/types.ts`. -/
def commandTypes : List String := ["test", "confirm-universal-menu-elements"]

/-- Task timeout in milliseconds (`_taskTimeout`, line 85). -/
def taskTimeout : Nat := 60000

/-- Liveness check period in milliseconds (`_checkInterval`, line 86). -/
def checkInterval : Nat := 30000

/-- A mapped task, as produced by `taskMapFunction` (lines 263-269): either a
`TaskEvent` or a `TaskCommand`, carrying its id, its sub-kind field from
`data` (eventType resp. commandType, absent when the wire data lacked it),
and the `Date.now()` value recorded when the engine first mapped it. -/
inductive Task where
  | event (id : String) (eventType : Option String) (timestampReceived : Nat)
  | command (id : String) (commandType : Option String) (timestampReceived : Nat)
deriving Repr, DecidableEq

/-- Projection `task.id`. -/
def Task.id : Task → String
  | .event i _ _ => i
  | .command i _ _ => i

/-- Projection `task.timestampReceived`. -/
def Task.timestampReceived : Task → Nat
  | .event _ _ ts => ts
  | .command _ _ ts => ts

/-- JavaScript falsiness of an optional string field: `undefined`/`null` and
the empty string are falsy. -/
def strFalsy : Option String → Bool
  | none => true
  | some s => s == ""

/-- Condition of line 175: the task is a `TaskEvent` and
`!task.data.eventType || !eventTypes.includes(task.data.eventType)`. -/
def autoConfirmEvent : Task → Bool
  | .event _ none _ => true
  | .event _ (some s) _ => s == "" || !(eventTypes.contains s)
  | .command _ _ _ => false

/-- Condition of line 181: the task is a `TaskCommand` and
`!task.data.commandType || !commandTypes.includes(task.data.commandType)`. -/
def autoRefuseCommand : Task → Bool
  | .command _ none _ => true
  | .command _ (some s) _ => s == "" || !(commandTypes.contains s)
  | .event _ _ _ => false

/-- A task that is neither auto-confirmed nor auto-refused is delivered
(lines 187-188). -/
def deliverable (t : Task) : Bool := !autoConfirmEvent t && !autoRefuseCommand t

/-- The task cache `_taskCache` (line 65).  The source uses a
`Map<string, TaskEvent | TaskCommand>` whose key is always the stored task's
own `id` (the only insertion is `set(task.id, task)`, line 188), so the map
is represented by its list of values in insertion order. -/
abbrev Cache := List Task

/-- Operation `_taskCache.has(i)`. -/
def cacheHas (c : Cache) (i : String) : Bool := c.any (fun t => t.id == i)

/-- Operation `_taskCache.get(i)`: the entry stored under id `i`, if any. -/
def cacheGet (c : Cache) (i : String) : Option Task := c.find? (fun t => t.id == i)

/-- Accumulator of the reducer of lines 171-192 together with the cache it
mutates: `tasksToEmit`, `commandsToRefuse`, `eventsToConfirm` and
`_taskCache`. -/
structure PassState where
  cache : Cache
  tasksToEmit : List Task
  commandsToRefuse : List Task
  eventsToConfirm : List Task
deriving Repr, DecidableEq

/-- One step of the reducer (lines 171-192): a task already in the cache is
skipped; an unrecognized event goes to `eventsToConfirm`; an unrecognized
command goes to `commandsToRefuse`; anything else is pushed to `tasksToEmit`
and inserted into the cache. -/
def processStep (s : PassState) (t : Task) : PassState :=
  if cacheHas s.cache t.id then s
  else if autoConfirmEvent t then { s with eventsToConfirm := s.eventsToConfirm ++ [t] }
  else if autoRefuseCommand t then { s with commandsToRefuse := s.commandsToRefuse ++ [t] }
  else { s with tasksToEmit := s.tasksToEmit ++ [t], cache := s.cache ++ [t] }

/-- The reducer run over the whole snapshot (`newTasks.reduce`, line 171). -/
def runTasks : PassState → List Task → PassState
  | s, [] => s
  | s, t :: ts => runTasks (processStep s t) ts

/-- The externally observable outputs of one `processTasks` invocation:
the cache it leaves behind, the batch emitted on `newTasks` (if any, line
215), and the id lists passed to the batched `refuseTasks` (line 199) and
`markTasksAsProcessed`-backed `confirmTaskEvents` (line 205) calls (if any). -/
structure PassOutput where
  cache : Cache
  emitted : Option (List Task)
  refuseCall : Option (List String)
  confirmCall : Option (List String)
deriving Repr, DecidableEq

/-- The pure core of `processTasks` (lines 145-223).  An empty (or missing)
snapshot clears the cache and produces no outputs (lines 147-154).  Otherwise
entries whose id is absent from the snapshot are dropped (lines 159-168), the
reducer classifies the new tasks, and the batched calls and the emission
happen only for nonempty lists (lines 197-216). -/
def processTasks (cache : Cache) (newTasks : List Task) : PassOutput :=
  if newTasks.isEmpty then
    { cache := [], emitted := none, refuseCall := none, confirmCall := none }
  else
    let newTaskIds := newTasks.map Task.id
    let keptCache := cache.filter (fun t => newTaskIds.contains t.id)
    let ps := runTasks { cache := keptCache, tasksToEmit := [],
                         commandsToRefuse := [], eventsToConfirm := [] } newTasks
    { cache := ps.cache,
      emitted := if ps.tasksToEmit.isEmpty then none else some ps.tasksToEmit,
      refuseCall :=
        if ps.commandsToRefuse.isEmpty then none
        else some (ps.commandsToRefuse.map Task.id),
      confirmCall :=
        if ps.eventsToConfirm.isEmpty then none
        else some (ps.eventsToConfirm.map Task.id) }

/-- Predicate `newDeliverable c` is the predicate selecting the snapshot tasks that a
pass starting from cache `c` both emits and inserts. -/
def newDeliverable (c : Cache) (t : Task) : Bool := !cacheHas c t.id && deliverable t

/-- Predicate `newAutoConfirm c` selects the snapshot tasks auto-confirmed by a pass
starting from cache `c`. -/
def newAutoConfirm (c : Cache) (t : Task) : Bool := !cacheHas c t.id && autoConfirmEvent t

/-- Predicate `newAutoRefuse c` selects the snapshot tasks auto-refused by a pass
starting from cache `c`. -/
def newAutoRefuse (c : Cache) (t : Task) : Bool := !cacheHas c t.id && autoRefuseCommand t

/-- The reducer state reached by a nonempty pass over snapshot `snap`
starting from cache `cache`: the stale entries are dropped first
(lines 159-168) and the reducer starts with empty side lists (line 192). -/
def passRun (cache : Cache) (snap : List Task) : PassState :=
  runTasks { cache := cache.filter (fun t => (snap.map Task.id).contains t.id),
             tasksToEmit := [], commandsToRefuse := [], eventsToConfirm := [] } snap

/-- The service handler state relevant to pass sequencing: `_taskCache`
(line 65), `_isProcessingTasks` (line 78) and `_latestTasks` (line 72). -/
structure EngineState where
  taskCache : Cache
  isProcessingTasks : Bool
  latestTasks : Option (List Task)
deriving Repr, DecidableEq

/-- The body of `runTasksQueue` (lines 225-235) once the debounce delay has
fired: while a pass is running the snapshot only replaces `_latestTasks`;
otherwise a pass starts on it, reported as the second component. -/
def runTasksQueueStep (st : EngineState) (newTasks : List Task) :
    EngineState × Option (List Task) :=
  if st.isProcessingTasks then ({ st with latestTasks := some newTasks }, none)
  else (st, some newTasks)

/-- Function `processTasksFinishes` (lines 135-143): consume `_latestTasks`, if set,
as the snapshot of the next pass (second component). -/
def processTasksFinishes (st : EngineState) : EngineState × Option (List Task) :=
  match st.latestTasks with
  | some l => ({ st with latestTasks := none }, some l)
  | none => (st, none)

/-- One full `processTasks` invocation (lines 145-223) excluding its tail
call into `processTasksFinishes`: the cache is replaced by the pass result
and `_isProcessingTasks` ends up `false` (line 149 resp. line 219). -/
def processTasksRun (st : EngineState) (newTasks : List Task) :
    EngineState × PassOutput :=
  let out := processTasks st.taskCache newTasks
  ({ st with taskCache := out.cache, isProcessingTasks := false }, out)

/-- A burst of debounced snapshot arrivals processed in order; collects the
snapshots on which a pass started immediately. -/
def burstArrivals : EngineState → List (List Task) → EngineState × List (List Task)
  | st, [] => (st, [])
  | st, s :: rest =>
    let p := runTasksQueueStep st s
    let q := burstArrivals p.1 rest
    (q.1, p.2.toList ++ q.2)

/-- A sequence of completed reconciliation passes: each pass reconciles the
cache left by the previous one against its snapshot; collects every pass's
outputs. -/
def runPasses : Cache → List (List Task) → Cache × List PassOutput
  | c, [] => (c, [])
  | c, s :: rest =>
    let out := processTasks c s
    let pr := runPasses out.cache rest
    (pr.1, out :: pr.2)

/-- How many tasks with id `i` were emitted on `newTasks` over a sequence of
pass outputs. -/
def emittedCount (outs : List PassOutput) (i : String) : Nat :=
  (outs.map (fun o => (o.emitted.getD []).countP (fun t => t.id == i))).sum

/-- The externally observable outputs of one tick of the long-running-task
check: the cache it leaves, the id list passed to the batched `deferTasks`
call (if any) and the task list carried by the `systemAlert` emission
(if any). -/
structure TickOutput where
  cache : Cache
  deferCall : Option (List String)
  alert : Option (List Task)
deriving Repr, DecidableEq

/-- The eviction condition of line 302: `now - task.timestampReceived >
this._taskTimeout`.  JavaScript evaluates a timestamp in the future to a
negative difference, which fails the comparison just like the truncated
`Nat` subtraction used here. -/
def isTaskTimedOut (now : Nat) (t : Task) : Bool :=
  decide (now - t.timestampReceived > taskTimeout)

/-- One tick of the interval installed by `startTaskCheckInterval`
(lines 287-317).  Nothing happens while the client is disconnected
(lines 292-295).  Otherwise every cache entry strictly older than
`_taskTimeout` is collected (lines 300-306), removed from the cache by id
(line 310), deferred in one batched call (line 312) and reported in a single
`systemAlert` (line 314). -/
def taskCheckTick (isConnected : Bool) (now : Nat) (cache : Cache) : TickOutput :=
  if !isConnected then { cache := cache, deferCall := none, alert := none }
  else
    let tasksToDefer := cache.filter (isTaskTimedOut now)
    if tasksToDefer.isEmpty then { cache := cache, deferCall := none, alert := none }
    else
      { cache := cache.filter (fun t => !((tasksToDefer.map Task.id).contains t.id)),
        deferCall := some (tasksToDefer.map Task.id),
        alert := some tasksToDefer }

/-- The sub-kind fields of the wire `data` payload of an incoming task
(`IncomingTaskData.data` of `src/types.ts`); only these two fields are
inspected by the reconciliation engine, the rest of the payload is opaque. -/
structure TaskData where
  eventType : Option String
  commandType : Option String
deriving Repr, DecidableEq

/-- An incoming raw item (`IncomingTaskData` of `src/types.ts`): its `_id`,
its `taskType` tag as the raw numeric value of the `TaskType` enum
(`event` = 1, `command` = 2; anything else is outside the upstream
contract), and its data payload. -/
structure IncomingTaskData where
  id : String
  taskType : Nat
  data : TaskData
deriving Repr, DecidableEq

/-- Function `taskMapFunction` (lines 263-269): an event maps to a `TaskEvent`, a
command to a `TaskCommand`, both stamped with the current `Date.now()`;
any other kind throws `swipelimeError('Unknown task type')` (which logs the
message to the console as it constructs the error). -/
def taskMapFunction (taskData : IncomingTaskData) (now : Nat) : Except String Task :=
  if taskData.taskType == 1 then
    Except.ok (Task.event taskData.id taskData.data.eventType now)
  else if taskData.taskType == 2 then
    Except.ok (Task.command taskData.id taskData.data.commandType now)
  else Except.error "Unknown task type"

/-- The snapshot mapping installed in `init` (line 245): `taskMapFunction`
applied to every document of the reactive collection.  A throw from the map
callback propagates out of the array mapping - there is no per-item catch in
the source - so one bad document aborts the mapped snapshot as a whole. -/
def mapSnapshot : List IncomingTaskData → Nat → Except String (List Task)
  | [], _ => Except.ok []
  | d :: ds, now =>
    match taskMapFunction d now with
    | Except.error e => Except.error e
    | Except.ok t =>
      match mapSnapshot ds now with
      | Except.error e => Except.error e
      | Except.ok ts => Except.ok (t :: ts)

/-- What one `Client.callMethod` invocation produces (src/index.ts lines
362-381): the `error` events emitted on the client's emitter, and the value
the returned promise resolves to (`none` models `undefined`). -/
structure MethodOutcome (R : Type) where
  errorEvents : List String
  result : Option R
deriving Repr, DecidableEq

/-- Method `Client.callMethod` (src/index.ts lines 362-381), as a function of the
underlying DDP call's outcome: a successful call resolves to its value; a
failed call emits exactly one `error` event (both the `Meteor.Error` branch
and the generic branch do) and resolves to `undefined`.  The promise never
rejects. -/
def callMethod {R : Type} (method : String) (remote : Except String R) :
    MethodOutcome R :=
  match remote with
  | Except.ok v => { errorEvents := [], result := some v }
  | Except.error e =>
    { errorEvents := ["Error calling method " ++ method ++ ": " ++ e], result := none }

/-- Function `getTaskIdFromTask` (lines 271-276): argument is a task object or a raw
id string; a falsy argument (for a string, the empty string) throws
`swipelimeError('Task is missing')`. -/
def getTaskIdFromTask : Sum Task String → Except String String
  | Sum.inl t => Except.ok t.id
  | Sum.inr s => if s == "" then Except.error "Task is missing" else Except.ok s

/-- Method `confirmTaskEvents` (lines 319-324): map the arguments to ids - with no
emptiness check - then call `markTasksAsProcessed` through
`Client.callMethod`.  An `.ok` result carries the id list passed to the
remote call together with the call's outcome; an `.error` is a synchronous
throw before any call. -/
def confirmTaskEvents (tasks : List (Sum Task String)) (remote : Except String Unit) :
    Except String (List String × MethodOutcome Unit) := do
  let taskIds ← tasks.mapM getTaskIdFromTask
  pure (taskIds, callMethod "markTasksAsProcessed" remote)

/-- Method `refuseTasks` (lines 346-351): same shape as `confirmTaskEvents`,
calling `refuseTasks` remotely; no emptiness check. -/
def refuseTasks (tasks : List (Sum Task String)) (remote : Except String Unit) :
    Except String (List String × MethodOutcome Unit) := do
  let taskIds ← tasks.mapM getTaskIdFromTask
  pure (taskIds, callMethod "refuseTasks" remote)

/-- Method `deferTasks` (lines 359-364): same shape as `confirmTaskEvents`,
calling `deferTasks` remotely; no emptiness check. -/
def deferTasks (tasks : List (Sum Task String)) (remote : Except String Unit) :
    Except String (List String × MethodOutcome Unit) := do
  let taskIds ← tasks.mapM getTaskIdFromTask
  pure (taskIds, callMethod "deferTasks" remote)

/-- Type `DataIdType` of `src/types.ts`: an optional id plus an optional
external id. -/
structure DataIdType where
  id : Option String
  externalId : Option String
deriving Repr, DecidableEq

/-- Function `checkOptionalIdValidity` (lines 278-281): throws when both the id and
the external id are falsy. -/
def checkOptionalIdValidity (idData : DataIdType) : Except String Unit :=
  if strFalsy idData.id && strFalsy idData.externalId then
    Except.error "id or externalId is required"
  else Except.ok ()

/-- Method `finishTable` (lines 422-427): id precondition check, then the remote
call; `.ok` means the call was issued. -/
def finishTable (tableIdData : DataIdType) (remote : Except String Unit) :
    Except String (MethodOutcome Unit) := do
  checkOptionalIdValidity tableIdData
  pure (callMethod "finishTable" remote)

/-- Method `getOrderItems` (lines 435-440): id precondition check, then the remote
call. -/
def getOrderItems {R : Type} (tableIdData : DataIdType) (remote : Except String R) :
    Except String (MethodOutcome R) := do
  checkOptionalIdValidity tableIdData
  pure (callMethod "getOrderItems" remote)

/-- Method `markPaymentDone` (lines 393-398): id precondition check, then the
`markPaymentChanged` remote call. -/
def markPaymentDone (tableIdData : DataIdType) (remote : Except String Unit) :
    Except String (MethodOutcome Unit) := do
  checkOptionalIdValidity tableIdData
  pure (callMethod "markPaymentChanged" remote)

/-- Method `cancelOrderItems` (lines 449-456): id precondition check, then an
emptiness check on the order item ids, then the remote call. -/
def cancelOrderItems (tableIdData : DataIdType) (orderItemIds : List String)
    (remote : Except String Unit) : Except String (MethodOutcome Unit) := do
  checkOptionalIdValidity tableIdData
  if orderItemIds.isEmpty then
    Except.error "cancelOrderItems method need valid orderItemIds"
  else pure (callMethod "cancelOrderItems" remote)

/-- Method `upsertUniversalMenuItems` (lines 514-519): emptiness check on the item
list, then the remote call; the item payloads are opaque here. -/
def upsertUniversalMenuItems {α : Type} (universalMenuItemsData : List α)
    (remote : Except String Unit) : Except String (MethodOutcome Unit) :=
  if universalMenuItemsData.isEmpty then
    Except.error "upsertUniversalMenuItems method need valid universalMenuItemsData"
  else pure (callMethod "upsertUniversalMenuItems" remote)

theorem autoConfirm_not_refuse {t : Task} (h : autoConfirmEvent t = true) :
    autoRefuseCommand t = false := by
  cases t with
  | event i e ts => simp [autoRefuseCommand]
  | command i c ts => simp [autoConfirmEvent] at h

theorem autoConfirm_not_deliverable {t : Task} (h : autoConfirmEvent t = true) :
    deliverable t = false := by
  simp [deliverable, h]

theorem autoRefuse_not_deliverable {t : Task} (h : autoRefuseCommand t = true) :
    deliverable t = false := by
  simp [deliverable, h]

theorem deliverable_not_auto {t : Task} (h : deliverable t = true) :
    autoConfirmEvent t = false ∧ autoRefuseCommand t = false := by
  simp [deliverable] at h
  exact h

theorem cacheHas_append (a b : Cache) (i : String) :
    cacheHas (a ++ b) i = (cacheHas a i || cacheHas b i) := by
  simp [cacheHas, List.any_append]

theorem cacheHas_singleton (t : Task) (i : String) :
    cacheHas [t] i = (t.id == i) := by
  simp [cacheHas]

/-- Characterization of the reducer when the snapshot's ids are pairwise
distinct: each output list is the corresponding filter of the snapshot, with
the filter predicates fixed at the initial cache. -/
theorem runTasks_eq (l : List Task) (s : PassState)
    (h : (l.map Task.id).Nodup) :
    runTasks s l =
      { cache := s.cache ++ l.filter (newDeliverable s.cache),
        tasksToEmit := s.tasksToEmit ++ l.filter (newDeliverable s.cache),
        commandsToRefuse := s.commandsToRefuse ++ l.filter (newAutoRefuse s.cache),
        eventsToConfirm := s.eventsToConfirm ++ l.filter (newAutoConfirm s.cache) } := by
  induction l generalizing s with
  | nil => simp [runTasks]
  | cons t ts ih =>
    simp only [List.map_cons, List.nodup_cons] at h
    obtain ⟨hid, hnd⟩ := h
    have congrHas : ∀ p ∈ ts, ∀ (c : Cache),
        cacheHas (c ++ [t]) p.id = cacheHas c p.id := by
      intro p hp c
      have : (t.id == p.id) = false := by
        have hne : t.id ≠ p.id := by
          intro hcontra
          exact hid (hcontra ▸ List.mem_map_of_mem Task.id hp)
        simpa using hne
      simp [cacheHas_append, cacheHas_singleton, this]
    by_cases hmem : cacheHas s.cache t.id = true
    · have hstep : processStep s t = s := by simp [processStep, hmem]
      rw [runTasks, hstep, ih s hnd]
      have hd : newDeliverable s.cache t = false := by simp [newDeliverable, hmem]
      have hc : newAutoConfirm s.cache t = false := by simp [newAutoConfirm, hmem]
      have hr : newAutoRefuse s.cache t = false := by simp [newAutoRefuse, hmem]
      simp [List.filter_cons, hd, hc, hr]
    · have hmem' : cacheHas s.cache t.id = false := by
        simpa using hmem
      by_cases hac : autoConfirmEvent t = true
      · have hstep : processStep s t =
            { s with eventsToConfirm := s.eventsToConfirm ++ [t] } := by
          simp [processStep, hmem', hac]
        rw [runTasks, hstep, ih _ hnd]
        have hd : newDeliverable s.cache t = false := by
          simp [newDeliverable, autoConfirm_not_deliverable hac]
        have hc : newAutoConfirm s.cache t = true := by
          simp [newAutoConfirm, hmem', hac]
        have hr : newAutoRefuse s.cache t = false := by
          simp [newAutoRefuse, autoConfirm_not_refuse hac]
        simp [List.filter_cons, hd, hc, hr]
      · by_cases har : autoRefuseCommand t = true
        · have hstep : processStep s t =
              { s with commandsToRefuse := s.commandsToRefuse ++ [t] } := by
            simp [processStep, hmem', hac, har]
          rw [runTasks, hstep, ih _ hnd]
          have hd : newDeliverable s.cache t = false := by
            simp [newDeliverable, autoRefuse_not_deliverable har]
          have hc : newAutoConfirm s.cache t = false := by
            simp [newAutoConfirm, hac]
          have hr : newAutoRefuse s.cache t = true := by
            simp [newAutoRefuse, hmem', har]
          simp [List.filter_cons, hd, hc, hr]
        · have hdel : deliverable t = true := by
            simp [deliverable, hac, har]
          have hstep : processStep s t =
              { s with tasksToEmit := s.tasksToEmit ++ [t],
                       cache := s.cache ++ [t] } := by
            simp [processStep, hmem', hac, har]
          rw [runTasks, hstep, ih _ hnd]
          have congrD : ts.filter (newDeliverable (s.cache ++ [t]))
              = ts.filter (newDeliverable s.cache) := by
            apply List.filter_congr
            intro p hp
            simp [newDeliverable, congrHas p hp]
          have congrC : ts.filter (newAutoConfirm (s.cache ++ [t]))
              = ts.filter (newAutoConfirm s.cache) := by
            apply List.filter_congr
            intro p hp
            simp [newAutoConfirm, congrHas p hp]
          have congrR : ts.filter (newAutoRefuse (s.cache ++ [t]))
              = ts.filter (newAutoRefuse s.cache) := by
            apply List.filter_congr
            intro p hp
            simp [newAutoRefuse, congrHas p hp]
          have hd : newDeliverable s.cache t = true := by
            simp [newDeliverable, hmem', hdel]
          have hc : newAutoConfirm s.cache t = false := by
            simp [newAutoConfirm, hac]
          have hr : newAutoRefuse s.cache t = false := by
            simp [newAutoRefuse, har]
          simp [congrD, congrC, congrR, List.filter_cons, hd, hc, hr]

theorem processStep_cache_sub (s : PassState) (t : Task) (i : String)
    (h : cacheHas (processStep s t).cache i = true) :
    cacheHas s.cache i = true ∨ t.id = i := by
  unfold processStep at h
  split at h
  · exact Or.inl h
  · split at h
    · exact Or.inl h
    · split at h
      · exact Or.inl h
      · simp only [cacheHas_append, cacheHas_singleton, Bool.or_eq_true] at h
        rcases h with h | h
        · exact Or.inl h
        · exact Or.inr (by simpa using h)

theorem processStep_confirm_sub (s : PassState) (t : Task) (u : Task)
    (h : u ∈ (processStep s t).eventsToConfirm) :
    u ∈ s.eventsToConfirm ∨ u = t := by
  unfold processStep at h
  split at h
  · exact Or.inl h
  · split at h
    · simp only [List.mem_append, List.mem_singleton] at h
      exact h
    · split at h
      · exact Or.inl h
      · exact Or.inl h

theorem processStep_refuse_sub (s : PassState) (t : Task) (u : Task)
    (h : u ∈ (processStep s t).commandsToRefuse) :
    u ∈ s.commandsToRefuse ∨ u = t := by
  unfold processStep at h
  split at h
  · exact Or.inl h
  · split at h
    · exact Or.inl h
    · split at h
      · simp only [List.mem_append, List.mem_singleton] at h
        exact h
      · exact Or.inl h

theorem runTasks_cache_sub (l : List Task) (s : PassState) (i : String)
    (h : cacheHas (runTasks s l).cache i = true) :
    cacheHas s.cache i = true ∨ i ∈ l.map Task.id := by
  induction l generalizing s with
  | nil => exact Or.inl h
  | cons t ts ih =>
    rw [runTasks] at h
    rcases ih _ h with h' | h'
    · rcases processStep_cache_sub s t i h' with h'' | h''
      · exact Or.inl h''
      · exact Or.inr (by simp [← h''])
    · exact Or.inr (by simp [h'])

theorem runTasks_confirm_sub (l : List Task) (s : PassState) (u : Task)
    (h : u ∈ (runTasks s l).eventsToConfirm) :
    u ∈ s.eventsToConfirm ∨ u ∈ l := by
  induction l generalizing s with
  | nil => exact Or.inl h
  | cons t ts ih =>
    rw [runTasks] at h
    rcases ih _ h with h' | h'
    · rcases processStep_confirm_sub s t u h' with h'' | h''
      · exact Or.inl h''
      · exact Or.inr (by simp [h''])
    · exact Or.inr (by simp [h'])

theorem runTasks_refuse_sub (l : List Task) (s : PassState) (u : Task)
    (h : u ∈ (runTasks s l).commandsToRefuse) :
    u ∈ s.commandsToRefuse ∨ u ∈ l := by
  induction l generalizing s with
  | nil => exact Or.inl h
  | cons t ts ih =>
    rw [runTasks] at h
    rcases ih _ h with h' | h'
    · rcases processStep_refuse_sub s t u h' with h'' | h''
      · exact Or.inl h''
      · exact Or.inr (by simp [h''])
    · exact Or.inr (by simp [h'])

theorem cacheHas_filter_sub (c : Cache) (p : Task → Bool) (i : String)
    (h : cacheHas (c.filter p) i = true) :
    ∃ t ∈ c, t.id = i ∧ p t = true := by
  simp only [cacheHas, List.any_eq_true, List.mem_filter] at h
  obtain ⟨t, ⟨htc, htp⟩, hid⟩ := h
  exact ⟨t, htc, by simpa using hid, htp⟩

theorem cacheHas_filter_of (c : Cache) (p : Task → Bool) (i : String)
    (hp : ∀ t, t.id = i → p t = true) (h : cacheHas c i = true) :
    cacheHas (c.filter p) i = true := by
  simp only [cacheHas, List.any_eq_true] at h ⊢
  obtain ⟨t, htc, hid⟩ := h
  exact ⟨t, List.mem_filter.2 ⟨htc, hp t (by simpa using hid)⟩, hid⟩

theorem processTasks_nil (cache : Cache) :
    processTasks cache [] =
      { cache := [], emitted := none, refuseCall := none, confirmCall := none } := rfl

theorem processTasks_ne_nil (cache : Cache) (snap : List Task) (hs : snap ≠ []) :
    processTasks cache snap =
      { cache := (passRun cache snap).cache,
        emitted :=
          if (passRun cache snap).tasksToEmit.isEmpty then none
          else some (passRun cache snap).tasksToEmit,
        refuseCall :=
          if (passRun cache snap).commandsToRefuse.isEmpty then none
          else some ((passRun cache snap).commandsToRefuse.map Task.id),
        confirmCall :=
          if (passRun cache snap).eventsToConfirm.isEmpty then none
          else some ((passRun cache snap).eventsToConfirm.map Task.id) } := by
  cases snap with
  | nil => exact absurd rfl hs
  | cons t ts => rfl

theorem passRun_cache_sub (cache : Cache) (snap : List Task) (i : String)
    (h : cacheHas (passRun cache snap).cache i = true) : i ∈ snap.map Task.id := by
  rcases runTasks_cache_sub snap _ i h with h' | h'
  · obtain ⟨t, _, hid, hp⟩ := cacheHas_filter_sub _ _ _ h'
    rw [hid] at hp
    simpa using hp
  · exact h'

/-- C4: after every completed pass the cache's id set is a subset of the
snapshot's id set; an id cached before the pass but absent from the snapshot
is gone afterwards, and neither batched auto-disposition call of that pass
contains it. -/
theorem c4_disappearance_consistency (cache : Cache) (snap : List Task) :
    (∀ i, cacheHas (processTasks cache snap).cache i = true → i ∈ snap.map Task.id) ∧
    (∀ i, cacheHas cache i = true → i ∉ snap.map Task.id →
      cacheHas (processTasks cache snap).cache i = false ∧
      (∀ L, (processTasks cache snap).confirmCall = some L → i ∉ L) ∧
      (∀ L, (processTasks cache snap).refuseCall = some L → i ∉ L)) := by
  have hsub : ∀ i, cacheHas (processTasks cache snap).cache i = true →
      i ∈ snap.map Task.id := by
    intro i h
    cases snap with
    | nil =>
      rw [processTasks_nil] at h
      simp [cacheHas] at h
    | cons t ts =>
      rw [processTasks_ne_nil cache (t :: ts) (by simp)] at h
      exact passRun_cache_sub cache (t :: ts) i h
  refine ⟨hsub, ?_⟩
  intro i _ hnotin
  refine ⟨?_, ?_, ?_⟩
  · rcases Bool.eq_false_or_eq_true (cacheHas (processTasks cache snap).cache i) with h | h
    · exact absurd (hsub i h) hnotin
    · exact h
  · intro L hL hiL
    cases snap with
    | nil => rw [processTasks_nil] at hL; cases hL
    | cons t ts =>
      rw [processTasks_ne_nil cache (t :: ts) (by simp)] at hL
      simp only at hL
      split at hL
      · cases hL
      · cases hL
        simp only [List.mem_map] at hiL
        obtain ⟨u, hu, huid⟩ := hiL
        rcases runTasks_confirm_sub (t :: ts) _ u hu with h' | h'
        · simp at h'
        · exact hnotin (huid ▸ List.mem_map_of_mem Task.id h')
  · intro L hL hiL
    cases snap with
    | nil => rw [processTasks_nil] at hL; cases hL
    | cons t ts =>
      rw [processTasks_ne_nil cache (t :: ts) (by simp)] at hL
      simp only at hL
      split at hL
      · cases hL
      · cases hL
        simp only [List.mem_map] at hiL
        obtain ⟨u, hu, huid⟩ := hiL
        rcases runTasks_refuse_sub (t :: ts) _ u hu with h' | h'
        · simp at h'
        · exact hnotin (huid ▸ List.mem_map_of_mem Task.id h')

/-- Witness for C4 at a concrete pass: the stale entry `"old"` disappears
and is in no disposition call, while the cache stays inside the snapshot. -/
theorem c4_disappearance_consistency_witness :
    cacheHas (processTasks [Task.event "old" (some "test") 0]
      [Task.event "a" (some "test") 5]).cache "old" = false := by
  exact ((c4_disappearance_consistency [Task.event "old" (some "test") 0]
    [Task.event "a" (some "test") 5]).2 "old" (by decide) (by decide)).1

theorem cacheGet_filter (c : Cache) (p : Task → Bool) (i : String)
    (hp : ∀ t, t.id = i → p t = true) :
    cacheGet (c.filter p) i = cacheGet c i := by
  induction c with
  | nil => rfl
  | cons t ts ih =>
    by_cases hti : t.id = i
    · have hpt : p t = true := hp t hti
      have hbeq : (t.id == i) = true := by simpa using hti
      simp [cacheGet, List.filter_cons, hpt, hbeq]
    · have hbeq : (t.id == i) = false := by simpa using hti
      cases hpt : p t
      · simpa [cacheGet, List.filter_cons, hpt, hbeq] using ih
      · simpa [cacheGet, List.filter_cons, hpt, hbeq] using ih

theorem cacheGet_append_left (a b : Cache) (i : String)
    (h : cacheHas a i = true) :
    cacheGet (a ++ b) i = cacheGet a i := by
  rw [cacheGet, cacheGet, List.find?_append]
  have hsome : (a.find? (fun t => t.id == i)).isSome := by
    rw [List.find?_isSome]
    simp only [cacheHas, List.any_eq_true] at h
    exact h
  cases hfa : a.find? (fun t => t.id == i) with
  | none => rw [hfa] at hsome; cases hsome
  | some v => simp [Option.or]

theorem runTasks_cache_prefix (l : List Task) (s : PassState) :
    ∃ rest, (runTasks s l).cache = s.cache ++ rest ∧
      ∀ t ∈ rest, cacheHas s.cache t.id = false := by
  induction l generalizing s with
  | nil => exact ⟨[], by simp [runTasks], by simp⟩
  | cons t ts ih =>
    rw [runTasks]
    by_cases h1 : cacheHas s.cache t.id = true
    · have hstep : processStep s t = s := by simp [processStep, h1]
      rw [hstep]
      exact ih s
    · have h1' : cacheHas s.cache t.id = false := by simpa using h1
      by_cases h2 : autoConfirmEvent t = true
      · have hstep : processStep s t =
            { s with eventsToConfirm := s.eventsToConfirm ++ [t] } := by
          simp [processStep, h1', h2]
        rw [hstep]
        obtain ⟨rest, hr, hprop⟩ := ih { s with eventsToConfirm := s.eventsToConfirm ++ [t] }
        exact ⟨rest, hr, hprop⟩
      · by_cases h3 : autoRefuseCommand t = true
        · have hstep : processStep s t =
              { s with commandsToRefuse := s.commandsToRefuse ++ [t] } := by
            simp [processStep, h1', h2, h3]
          rw [hstep]
          obtain ⟨rest, hr, hprop⟩ := ih { s with commandsToRefuse := s.commandsToRefuse ++ [t] }
          exact ⟨rest, hr, hprop⟩
        · have hstep : processStep s t =
              { s with tasksToEmit := s.tasksToEmit ++ [t], cache := s.cache ++ [t] } := by
            simp [processStep, h1', h2, h3]
          rw [hstep]
          obtain ⟨rest, hr, hprop⟩ :=
            ih { s with tasksToEmit := s.tasksToEmit ++ [t], cache := s.cache ++ [t] }
          refine ⟨t :: rest, ?_, ?_⟩
          · rw [hr]
            simp
          · intro u hu
            rcases List.mem_cons.1 hu with hu | hu
            · rw [hu]
              exact h1'
            · have := hprop u hu
              rw [cacheHas_append] at this
              exact (Bool.or_eq_false_iff.1 this).1

/-- C10: an id both in the cache and in the snapshot keeps its exact cache
entry (in particular its `timestampReceived`) across the pass, even though
`taskMapFunction` stamps every freshly mapped task with the current
`Date.now()`: the liveness timeout therefore measures time since the engine
first observed the item. -/
theorem c10_retained_entry_unchanged (cache : Cache) (snap : List Task) (i : String)
    (h1 : cacheHas cache i = true) (h2 : i ∈ snap.map Task.id) :
    cacheGet (processTasks cache snap).cache i = cacheGet cache i ∧
    (∀ d now t, taskMapFunction d now = Except.ok t → t.timestampReceived = now) := by
  constructor
  · cases snap with
    | nil => simp at h2
    | cons t ts =>
      rw [processTasks_ne_nil cache (t :: ts) (by simp)]
      simp only [passRun]
      have hp : ∀ u : Task, u.id = i →
          (((t :: ts).map Task.id).contains u.id) = true := by
        intro u hu
        rw [hu]
        simpa using h2
      have hkept : cacheHas (cache.filter
          (fun u => ((t :: ts).map Task.id).contains u.id)) i = true :=
        cacheHas_filter_of cache _ i hp h1
      obtain ⟨rest, hr, hprop⟩ := runTasks_cache_prefix (t :: ts)
        { cache := cache.filter (fun u => ((t :: ts).map Task.id).contains u.id),
          tasksToEmit := [], commandsToRefuse := [], eventsToConfirm := [] }
      rw [hr, cacheGet_append_left _ _ _ hkept]
      exact cacheGet_filter cache _ i hp
  · intro d now t h
    unfold taskMapFunction at h
    split at h
    · cases h
      rfl
    · split at h
      · cases h
        rfl
      · cases h

/-- Witness for C10: a cached entry with timestamp 0 keeps that timestamp
across a pass whose snapshot carries the same id stamped much later. -/
theorem c10_retained_entry_unchanged_witness :
    cacheGet (processTasks [Task.event "a" (some "test") 0]
      [Task.event "a" (some "test") 99999]).cache "a" =
      some (Task.event "a" (some "test") 0) := by
  rw [(c10_retained_entry_unchanged [Task.event "a" (some "test") 0]
    [Task.event "a" (some "test") 99999] "a" (by decide) (by decide)).1]
  decide

theorem cacheHas_iff (c : Cache) (i : String) :
    cacheHas c i = true ↔ ∃ u ∈ c, u.id = i := by
  simp [cacheHas, List.any_eq_true]

theorem cacheHas_filter_le (c : Cache) (p : Task → Bool) (i : String)
    (h : cacheHas c i = false) : cacheHas (c.filter p) i = false := by
  rcases Bool.eq_false_or_eq_true (cacheHas (c.filter p) i) with hf | hf
  · obtain ⟨u, hu, hid, _⟩ := cacheHas_filter_sub c p i hf
    rw [(cacheHas_iff c i).2 ⟨u, hu, hid⟩] at h
    cases h
  · exact hf

theorem isEmpty_false_of_mem {α : Type} {l : List α} {x : α} (h : x ∈ l) :
    l.isEmpty = false := by
  cases l with
  | nil => cases h
  | cons a as => rfl

theorem passRun_spec (cache : Cache) (snap : List Task)
    (hnd : (snap.map Task.id).Nodup) :
    passRun cache snap =
      { cache := cache.filter (fun u => (snap.map Task.id).contains u.id) ++
          snap.filter (newDeliverable
            (cache.filter (fun u => (snap.map Task.id).contains u.id))),
        tasksToEmit := snap.filter (newDeliverable
          (cache.filter (fun u => (snap.map Task.id).contains u.id))),
        commandsToRefuse := snap.filter (newAutoRefuse
          (cache.filter (fun u => (snap.map Task.id).contains u.id))),
        eventsToConfirm := snap.filter (newAutoConfirm
          (cache.filter (fun u => (snap.map Task.id).contains u.id))) } := by
  unfold passRun
  rw [runTasks_eq _ _ hnd]
  rfl

/-- C2: a snapshot item whose id is not yet cached is dispositioned by kind:
an unrecognized-sub-kind event lands in exactly the batched confirm call, an
unrecognized-sub-kind command in exactly the batched refuse call - in either
case it is never cached and never emitted - and anything else is emitted and
cached. -/
theorem c2_auto_disposition (cache : Cache) (snap : List Task) (t : Task)
    (hnd : (snap.map Task.id).Nodup) (hmem : t ∈ snap)
    (hnew : cacheHas cache t.id = false) :
    (autoConfirmEvent t = true →
      (∃ L, (processTasks cache snap).confirmCall = some L ∧ t.id ∈ L) ∧
      (∀ L, (processTasks cache snap).refuseCall = some L → t.id ∉ L) ∧
      cacheHas (processTasks cache snap).cache t.id = false ∧
      (∀ b, (processTasks cache snap).emitted = some b → t.id ∉ b.map Task.id)) ∧
    (autoRefuseCommand t = true →
      (∃ L, (processTasks cache snap).refuseCall = some L ∧ t.id ∈ L) ∧
      (∀ L, (processTasks cache snap).confirmCall = some L → t.id ∉ L) ∧
      cacheHas (processTasks cache snap).cache t.id = false ∧
      (∀ b, (processTasks cache snap).emitted = some b → t.id ∉ b.map Task.id)) ∧
    (deliverable t = true →
      (∃ b, (processTasks cache snap).emitted = some b ∧ t.id ∈ b.map Task.id) ∧
      cacheHas (processTasks cache snap).cache t.id = true) := by
  have hsnap : snap ≠ [] := List.ne_nil_of_mem hmem
  rw [processTasks_ne_nil cache snap hsnap, passRun_spec cache snap hnd]
  set kc := cache.filter (fun u => (snap.map Task.id).contains u.id) with hkc
  have hknew : cacheHas kc t.id = false := cacheHas_filter_le cache _ t.id hnew
  have hinj : ∀ u ∈ snap, u.id = t.id → u = t := by
    intro u hu he
    exact List.inj_on_of_nodup_map hnd hu hmem he
  refine ⟨?_, ?_, ?_⟩
  · intro hac
    have hpt : newAutoConfirm kc t = true := by
      simp [newAutoConfirm, hknew, hac]
    have htf : t ∈ snap.filter (newAutoConfirm kc) := List.mem_filter.2 ⟨hmem, hpt⟩
    refine ⟨?_, ?_, ?_, ?_⟩
    · refine ⟨(snap.filter (newAutoConfirm kc)).map Task.id, ?_, ?_⟩
      · simp [isEmpty_false_of_mem htf]
      · exact List.mem_map_of_mem Task.id htf
    · intro L hL hmemL
      simp only at hL
      split at hL
      · cases hL
      · cases hL
        obtain ⟨u, hu, huid⟩ := List.mem_map.1 hmemL
        have hu' : u ∈ snap := (List.mem_filter.1 hu).1
        have hup : newAutoRefuse kc u = true := (List.mem_filter.1 hu).2
        rw [hinj u hu' huid] at hup
        simp [newAutoRefuse, autoConfirm_not_refuse hac] at hup
    · rw [cacheHas_append, hknew, Bool.false_or]
      rcases Bool.eq_false_or_eq_true
        (cacheHas (snap.filter (newDeliverable kc)) t.id) with hf | hf
      · obtain ⟨v, hv, hvid⟩ := (cacheHas_iff _ _).1 hf
        have hv' : v ∈ snap := (List.mem_filter.1 hv).1
        have hvp : newDeliverable kc v = true := (List.mem_filter.1 hv).2
        rw [hinj v hv' hvid] at hvp
        simp [newDeliverable, autoConfirm_not_deliverable hac] at hvp
      · exact hf
    · intro b hb hmemb
      simp only at hb
      split at hb
      · cases hb
      · cases hb
        obtain ⟨u, hu, huid⟩ := List.mem_map.1 hmemb
        have hu' : u ∈ snap := (List.mem_filter.1 hu).1
        have hup : newDeliverable kc u = true := (List.mem_filter.1 hu).2
        rw [hinj u hu' huid] at hup
        simp [newDeliverable, autoConfirm_not_deliverable hac] at hup
  · intro har
    have hpt : newAutoRefuse kc t = true := by
      simp [newAutoRefuse, hknew, har]
    have htf : t ∈ snap.filter (newAutoRefuse kc) := List.mem_filter.2 ⟨hmem, hpt⟩
    have hacf : autoConfirmEvent t = false := by
      rcases Bool.eq_false_or_eq_true (autoConfirmEvent t) with h | h
      · rw [autoConfirm_not_refuse h] at har
        cases har
      · exact h
    refine ⟨?_, ?_, ?_, ?_⟩
    · refine ⟨(snap.filter (newAutoRefuse kc)).map Task.id, ?_, ?_⟩
      · simp [isEmpty_false_of_mem htf]
      · exact List.mem_map_of_mem Task.id htf
    · intro L hL hmemL
      simp only at hL
      split at hL
      · cases hL
      · cases hL
        obtain ⟨u, hu, huid⟩ := List.mem_map.1 hmemL
        have hu' : u ∈ snap := (List.mem_filter.1 hu).1
        have hup : newAutoConfirm kc u = true := (List.mem_filter.1 hu).2
        rw [hinj u hu' huid] at hup
        simp [newAutoConfirm, hacf] at hup
    · rw [cacheHas_append, hknew, Bool.false_or]
      rcases Bool.eq_false_or_eq_true
        (cacheHas (snap.filter (newDeliverable kc)) t.id) with hf | hf
      · obtain ⟨v, hv, hvid⟩ := (cacheHas_iff _ _).1 hf
        have hv' : v ∈ snap := (List.mem_filter.1 hv).1
        have hvp : newDeliverable kc v = true := (List.mem_filter.1 hv).2
        rw [hinj v hv' hvid] at hvp
        simp [newDeliverable, autoRefuse_not_deliverable har] at hvp
      · exact hf
    · intro b hb hmemb
      simp only at hb
      split at hb
      · cases hb
      · cases hb
        obtain ⟨u, hu, huid⟩ := List.mem_map.1 hmemb
        have hu' : u ∈ snap := (List.mem_filter.1 hu).1
        have hup : newDeliverable kc u = true := (List.mem_filter.1 hu).2
        rw [hinj u hu' huid] at hup
        simp [newDeliverable, autoRefuse_not_deliverable har] at hup
  · intro hdel
    have hpt : newDeliverable kc t = true := by
      simp [newDeliverable, hknew, hdel]
    have htf : t ∈ snap.filter (newDeliverable kc) := List.mem_filter.2 ⟨hmem, hpt⟩
    refine ⟨⟨snap.filter (newDeliverable kc), ?_, ?_⟩, ?_⟩
    · simp [isEmpty_false_of_mem htf]
    · exact List.mem_map_of_mem Task.id htf
    · rw [cacheHas_append]
      have : cacheHas (snap.filter (newDeliverable kc)) t.id = true :=
        (cacheHas_iff _ _).2 ⟨t, htf, rfl⟩
      rw [this, Bool.or_true]

/-- Witness for C2: in a pass over a fresh snapshot with one unrecognized
event, one unrecognized command and one well-formed event, the unrecognized
event's id appears in the batched confirm call. -/
theorem c2_auto_disposition_witness :
    ∃ L, (processTasks [] [Task.event "b" (some "bogus-topic") 0,
      Task.command "c" none 0, Task.event "a" (some "test") 0]).confirmCall = some L ∧
      "b" ∈ L := by
  exact ((c2_auto_disposition [] [Task.event "b" (some "bogus-topic") 0,
    Task.command "c" none 0, Task.event "a" (some "test") 0]
    (Task.event "b" (some "bogus-topic") 0)
    (by decide) (by decide) (by decide)).1 (by decide)).1

theorem emitted_getD_eq (cache : Cache) (snap : List Task) (hs : snap ≠ []) :
    (processTasks cache snap).emitted.getD [] = (passRun cache snap).tasksToEmit := by
  rw [processTasks_ne_nil _ _ hs]
  simp only
  split
  · rename_i h
    simp [List.isEmpty_iff.1 h]
  · rfl

theorem countP_id_eq_count (l : List Task) (i : String) :
    l.countP (fun t => t.id == i) = (l.map Task.id).count i := by
  rw [List.count_eq_countP, List.countP_map]
  rfl

theorem pass_first_delivery (cache : Cache) (snap : List Task) (i : String)
    (hnd : (snap.map Task.id).Nodup) (hmem : i ∈ snap.map Task.id)
    (hdel : ∀ t ∈ snap, t.id = i → deliverable t = true)
    (hnew : cacheHas cache i = false) :
    ((processTasks cache snap).emitted.getD []).countP (fun t => t.id == i) = 1 ∧
    cacheHas (processTasks cache snap).cache i = true := by
  have hs : snap ≠ [] := by
    intro h
    rw [h] at hmem
    simp at hmem
  have hknew : cacheHas (cache.filter (fun u => (snap.map Task.id).contains u.id)) i
      = false := cacheHas_filter_le cache _ i hnew
  constructor
  · rw [emitted_getD_eq _ _ hs, passRun_spec _ _ hnd]
    simp only
    rw [List.countP_filter]
    have hcongr : ∀ t ∈ snap,
        ((t.id == i) && newDeliverable
          (cache.filter (fun u => (snap.map Task.id).contains u.id)) t)
        ↔ (t.id == i) := by
      intro t ht
      constructor
      · intro h
        simp only [Bool.and_eq_true] at h
        exact h.1
      · intro h
        have hid : t.id = i := by simpa using h
        have : newDeliverable
            (cache.filter (fun u => (snap.map Task.id).contains u.id)) t = true := by
          rw [newDeliverable, hid, hknew]
          simp [hdel t ht hid]
        rw [this, h]
        rfl
    rw [List.countP_congr hcongr, countP_id_eq_count]
    exact List.count_eq_one_of_mem hnd hmem
  · rw [processTasks_ne_nil _ _ hs, passRun_spec _ _ hnd]
    simp only
    rw [cacheHas_append]
    obtain ⟨t, ht, htid⟩ := List.mem_map.1 hmem
    have hpt : newDeliverable
        (cache.filter (fun u => (snap.map Task.id).contains u.id)) t = true := by
      rw [newDeliverable, htid, hknew]
      simp [hdel t ht htid]
    have : cacheHas (snap.filter (newDeliverable
        (cache.filter (fun u => (snap.map Task.id).contains u.id)))) i = true :=
      (cacheHas_iff _ _).2 ⟨t, List.mem_filter.2 ⟨ht, hpt⟩, htid⟩
    rw [this, Bool.or_true]

theorem pass_suppression (cache : Cache) (snap : List Task) (i : String)
    (hnd : (snap.map Task.id).Nodup) (hmem : i ∈ snap.map Task.id)
    (hcached : cacheHas cache i = true) :
    ((processTasks cache snap).emitted.getD []).countP (fun t => t.id == i) = 0 ∧
    cacheHas (processTasks cache snap).cache i = true := by
  have hs : snap ≠ [] := by
    intro h
    rw [h] at hmem
    simp at hmem
  have hkept : cacheHas (cache.filter (fun u => (snap.map Task.id).contains u.id)) i
      = true := by
    refine cacheHas_filter_of cache _ i ?_ hcached
    intro t ht
    rw [ht]
    simpa using hmem
  constructor
  · rw [emitted_getD_eq _ _ hs, passRun_spec _ _ hnd]
    simp only
    rw [List.countP_filter, List.countP_eq_zero]
    intro t ht h
    simp only [Bool.and_eq_true] at h
    have hid : t.id = i := by simpa using h.1
    have hnd' := h.2
    rw [newDeliverable, hid, hkept] at hnd'
    simp at hnd'
  · rw [processTasks_ne_nil _ _ hs, passRun_spec _ _ hnd]
    simp only
    rw [cacheHas_append, hkept, Bool.true_or]

theorem runPasses_suppression (cache : Cache) (snaps : List (List Task)) (i : String)
    (hcached : cacheHas cache i = true)
    (hall : ∀ s ∈ snaps, (s.map Task.id).Nodup ∧ i ∈ s.map Task.id) :
    emittedCount (runPasses cache snaps).2 i = 0 ∧
    cacheHas (runPasses cache snaps).1 i = true := by
  induction snaps generalizing cache with
  | nil => exact ⟨rfl, hcached⟩
  | cons s rest ih =>
    obtain ⟨hnd, hmem⟩ := hall s (by simp)
    obtain ⟨h1, h2⟩ := pass_suppression cache s i hnd hmem hcached
    obtain ⟨h3, h4⟩ := ih (processTasks cache s).cache h2
      (fun s' hs' => hall s' (by simp [hs']))
    refine ⟨?_, h4⟩
    simp only [runPasses, emittedCount, List.map_cons, List.sum_cons]
    rw [h1]
    simpa [emittedCount] using h3

/-- C3 (amended): across a sequence of passes whose snapshots all carry a
given id with pairwise-distinct snapshot ids, if the id is not cached at the
start and every task carrying it is deliverable (recognized sub-kind), it is
emitted on `newTasks` exactly once; re-delivery is suppressed while the item
stays cached.  (An unrecognized-sub-kind item is never emitted at all - see
the counterexample - so the unamended "exactly once for every identity"
fails.) -/
theorem c3_idempotent_delivery (cache : Cache) (snaps : List (List Task)) (i : String)
    (h0 : cacheHas cache i = false) (hne : snaps ≠ [])
    (hall : ∀ s ∈ snaps, (s.map Task.id).Nodup ∧ i ∈ s.map Task.id ∧
      (∀ t ∈ s, t.id = i → deliverable t = true)) :
    emittedCount (runPasses cache snaps).2 i = 1 := by
  cases snaps with
  | nil => exact absurd rfl hne
  | cons s rest =>
    obtain ⟨hnd, hmem, hdel⟩ := hall s (by simp)
    obtain ⟨h1, h2⟩ := pass_first_delivery cache s i hnd hmem hdel h0
    obtain ⟨h3, _⟩ := runPasses_suppression (processTasks cache s).cache rest i h2
      (fun s' hs' => ⟨(hall s' (by simp [hs'])).1, (hall s' (by simp [hs'])).2.1⟩)
    simp only [runPasses, emittedCount, List.map_cons, List.sum_cons]
    rw [h1]
    simpa [emittedCount] using h3

/-- C3 counterexample: an item with an unrecognized sub-kind that is present
in two consecutive snapshots, never removed in between, is emitted zero
times - not exactly once as the unamended claim asserts. -/
theorem c3_counterexample :
    emittedCount (runPasses [] [[Task.event "a" (some "bogus-topic") 0],
      [Task.event "a" (some "bogus-topic") 0]]).2 "a" = 0 ∧
    emittedCount (runPasses [] [[Task.event "a" (some "bogus-topic") 0],
      [Task.event "a" (some "bogus-topic") 0]]).2 "a" ≠ 1 := by
  decide

/-- Witness for the amended C3: a deliverable item repeated in two snapshots
is emitted exactly once. -/
theorem c3_idempotent_delivery_witness :
    emittedCount (runPasses [] [[Task.event "a" (some "test") 0],
      [Task.event "a" (some "test") 7]]).2 "a" = 1 := by
  exact c3_idempotent_delivery [] [[Task.event "a" (some "test") 0],
    [Task.event "a" (some "test") 7]] "a" (by decide) (by decide) (by decide)

theorem burstArrivals_processing (burst : List (List Task)) (st : EngineState)
    (h : st.isProcessingTasks = true) :
    (burstArrivals st burst).2 = [] ∧
    (burstArrivals st burst).1.isProcessingTasks = true ∧
    (burstArrivals st burst).1.taskCache = st.taskCache ∧
    (burstArrivals st burst).1.latestTasks = burst.getLast?.or st.latestTasks := by
  induction burst generalizing st with
  | nil => exact ⟨rfl, h, rfl, rfl⟩
  | cons s rest ih =>
    have hstep : runTasksQueueStep st s = ({ st with latestTasks := some s }, none) := by
      simp [runTasksQueueStep, h]
    obtain ⟨h1, h2, h3, h4⟩ := ih { st with latestTasks := some s } h
    refine ⟨?_, ?_, ?_, ?_⟩
    · simp [burstArrivals, hstep, h1]
    · simpa [burstArrivals, hstep] using h2
    · simpa [burstArrivals, hstep] using h3
    · rw [show (burstArrivals st (s :: rest)).1
          = (burstArrivals { st with latestTasks := some s } rest).1 by
            simp [burstArrivals, hstep]]
      rw [h4]
      cases rest with
      | nil => rfl
      | cons r rs =>
        rw [List.getLast?_cons_cons]
        have : (r :: rs).getLast?.isSome := List.getLast?_isSome.2 (by simp)
        cases hl : (r :: rs).getLast? with
        | none => rw [hl] at this; cases this
        | some l => rfl

/-- C1: while a pass is running, every debounced snapshot arrival of a burst
only replaces the single pending slot `_latestTasks` and starts no
concurrent pass; when the running pass completes, exactly one additional
pass starts, on the last snapshot of the burst only, and the completion of
that pass (absent further arrivals) starts none. -/
theorem c1_single_flight (st : EngineState) (burst : List (List Task))
    (hrun : st.isProcessingTasks = true) (hne : burst ≠ []) :
    (burstArrivals st burst).2 = [] ∧
    (burstArrivals st burst).1.latestTasks = burst.getLast? ∧
    (processTasksFinishes (burstArrivals st burst).1).2 = burst.getLast? ∧
    (∀ snap, burst.getLast? = some snap →
      (processTasksFinishes
        (processTasksRun (processTasksFinishes (burstArrivals st burst).1).1 snap).1).2
        = none) := by
  obtain ⟨h1, _, _, h4⟩ := burstArrivals_processing burst st hrun
  have hlast : (burstArrivals st burst).1.latestTasks = burst.getLast? := by
    rw [h4]
    have : burst.getLast?.isSome := List.getLast?_isSome.2 hne
    cases hl : burst.getLast? with
    | none => rw [hl] at this; cases this
    | some l => rfl
  refine ⟨h1, hlast, ?_, ?_⟩
  · cases hl : burst.getLast? with
    | none => exact absurd (List.getLast?_eq_none_iff.1 hl) hne
    | some l =>
      rw [processTasksFinishes, hlast, hl]
  · intro snap hsnap
    have hfin : (processTasksFinishes (burstArrivals st burst).1).1.latestTasks
        = none := by
      rw [processTasksFinishes, hlast, hsnap]
    rw [processTasksFinishes]
    have : (processTasksRun
        (processTasksFinishes (burstArrivals st burst).1).1 snap).1.latestTasks
        = none := by
      rw [processTasksRun]
      exact hfin
    rw [this]

/-- Witness for C1 at a concrete running state and two-snapshot burst. -/
theorem c1_single_flight_witness :
    (burstArrivals { taskCache := [], isProcessingTasks := true, latestTasks := none }
      [[Task.event "a" (some "test") 0], [Task.event "b" (some "test") 1]]).2 = [] := by
  exact (c1_single_flight
    { taskCache := [], isProcessingTasks := true, latestTasks := none }
    [[Task.event "a" (some "test") 0], [Task.event "b" (some "test") 1]]
    (by decide) (by decide)).1

/-- C5: a pass over an empty snapshot clears the whole cache, emits nothing,
issues no remote call, leaves the processing flag cleared, and then checks
the pending slot exactly as any completed pass does: the pending snapshot
(if any) is consumed as the next pass. -/
theorem c5_empty_snapshot_reset (st : EngineState) :
    processTasks st.taskCache [] =
      { cache := [], emitted := none, refuseCall := none, confirmCall := none } ∧
    (processTasksRun st []).1.taskCache = [] ∧
    (processTasksRun st []).1.isProcessingTasks = false ∧
    (processTasksFinishes (processTasksRun st []).1).2 = st.latestTasks ∧
    (processTasksFinishes (processTasksRun st []).1).1.latestTasks = none := by
  refine ⟨rfl, rfl, rfl, ?_, ?_⟩
  · cases h : st.latestTasks with
    | none =>
      have hl : (processTasksRun st []).1.latestTasks = none := h
      rw [processTasksFinishes, hl]
    | some l =>
      have hl : (processTasksRun st []).1.latestTasks = some l := h
      rw [processTasksFinishes, hl]
  · cases h : st.latestTasks with
    | none =>
      have hl : (processTasksRun st []).1.latestTasks = none := h
      rw [processTasksFinishes, hl]
      exact hl
    | some l =>
      have hl : (processTasksRun st []).1.latestTasks = some l := h
      rw [processTasksFinishes, hl]

theorem taskCheckTick_spec (now : Nat) (cache : Cache) :
    taskCheckTick true now cache =
      if (cache.filter (isTaskTimedOut now)).isEmpty then
        { cache := cache, deferCall := none, alert := none }
      else
        { cache := cache.filter
            (fun t => !(((cache.filter (isTaskTimedOut now)).map Task.id).contains t.id)),
          deferCall := some ((cache.filter (isTaskTimedOut now)).map Task.id),
          alert := some (cache.filter (isTaskTimedOut now)) } := rfl

/-- C6: on a connected tick, every cache entry older than the task timeout
is evicted and appears in the single batched defer call and the single
escalation alert, entries not older than the timeout stay cached, the defer
call and the alert carry exactly the evicted identities resp. items, and
when nothing timed out no call and no alert happen. -/
theorem c6_liveness_eviction (now : Nat) (cache : Cache)
    (hnd : (cache.map Task.id).Nodup) :
    (∀ t ∈ cache, isTaskTimedOut now t = true →
      cacheHas (taskCheckTick true now cache).cache t.id = false ∧
      (∃ L, (taskCheckTick true now cache).deferCall = some L ∧ t.id ∈ L) ∧
      (∃ A, (taskCheckTick true now cache).alert = some A ∧ t ∈ A)) ∧
    (∀ t ∈ cache, isTaskTimedOut now t = false →
      t ∈ (taskCheckTick true now cache).cache) ∧
    (∀ L, (taskCheckTick true now cache).deferCall = some L →
      ∀ j, j ∈ L ↔ ∃ t ∈ cache, t.id = j ∧ isTaskTimedOut now t = true) ∧
    (∀ A, (taskCheckTick true now cache).alert = some A →
      ∀ t, t ∈ A ↔ t ∈ cache ∧ isTaskTimedOut now t = true) ∧
    ((∀ t ∈ cache, isTaskTimedOut now t = false) →
      (taskCheckTick true now cache).deferCall = none ∧
      (taskCheckTick true now cache).alert = none) := by
  rw [taskCheckTick_spec]
  by_cases hev : (cache.filter (isTaskTimedOut now)).isEmpty = true
  · rw [if_pos hev]
    have hnil : cache.filter (isTaskTimedOut now) = [] := List.isEmpty_iff.1 hev
    refine ⟨?_, ?_, ?_, ?_, ?_⟩
    · intro t ht hto
      have : t ∈ cache.filter (isTaskTimedOut now) := List.mem_filter.2 ⟨ht, hto⟩
      rw [hnil] at this
      cases this
    · intro t ht _
      exact ht
    · intro L hL
      cases hL
    · intro A hA
      cases hA
    · intro _
      exact ⟨rfl, rfl⟩
  · rw [if_neg hev]
    refine ⟨?_, ?_, ?_, ?_, ?_⟩
    · intro t ht hto
      have htev : t ∈ cache.filter (isTaskTimedOut now) := List.mem_filter.2 ⟨ht, hto⟩
      refine ⟨?_, ⟨_, rfl, List.mem_map_of_mem Task.id htev⟩, ⟨_, rfl, htev⟩⟩
      rcases Bool.eq_false_or_eq_true (cacheHas (cache.filter
          (fun u => !(((cache.filter (isTaskTimedOut now)).map Task.id).contains u.id)))
          t.id) with hf | hf
      · obtain ⟨u, hu, huid, hup⟩ := cacheHas_filter_sub cache _ t.id hf
        rw [huid] at hup
        have : t.id ∈ (cache.filter (isTaskTimedOut now)).map Task.id :=
          List.mem_map_of_mem Task.id htev
        simp [this] at hup
      · exact hf
    · intro t ht hto
      refine List.mem_filter.2 ⟨ht, ?_⟩
      rcases Bool.eq_false_or_eq_true
          (((cache.filter (isTaskTimedOut now)).map Task.id).contains t.id) with hc | hc
      · have h' : ∃ u, (u ∈ cache ∧ isTaskTimedOut now u = true) ∧ u.id = t.id := by
          simpa using hc
        obtain ⟨u, ⟨hu', hut⟩, huid⟩ := h'
        rw [List.inj_on_of_nodup_map hnd hu' ht huid] at hut
        rw [hto] at hut
        cases hut
      · rw [hc]
        rfl
    · intro L hL j
      cases hL
      constructor
      · intro hj
        obtain ⟨u, hu, huid⟩ := List.mem_map.1 hj
        exact ⟨u, (List.mem_filter.1 hu).1, huid, (List.mem_filter.1 hu).2⟩
      · intro ⟨u, hu, huid, hut⟩
        exact huid ▸ List.mem_map_of_mem Task.id (List.mem_filter.2 ⟨hu, hut⟩)
    · intro A hA t
      cases hA
      constructor
      · intro htA
        exact ⟨(List.mem_filter.1 htA).1, (List.mem_filter.1 htA).2⟩
      · intro ⟨hu, hut⟩
        exact List.mem_filter.2 ⟨hu, hut⟩
    · intro hnone
      have : cache.filter (isTaskTimedOut now) = [] := by
        rw [List.filter_eq_nil_iff]
        intro t ht
        rw [hnone t ht]
        simp
      rw [List.isEmpty_iff.2 this] at hev
      cases hev rfl

/-- Witness for C6: with the 60000 ms timeout, an entry received at 0 is
evicted on a connected tick at 70000 and its id is in the defer call. -/
theorem c6_liveness_eviction_witness :
    cacheHas (taskCheckTick true 70000
      [Task.event "a" (some "test") 0, Task.event "b" (some "test") 50000]).cache
      "a" = false := by
  exact ((c6_liveness_eviction 70000
    [Task.event "a" (some "test") 0, Task.event "b" (some "test") 50000]
    (by decide)).1 (Task.event "a" (some "test") 0) (by decide) (by decide)).1

/-- C7 counterexample: a snapshot holding an unknown-kind raw item followed
by a well-formed event maps to an error - the well-formed item is not
processed in that pass, contradicting "the remaining items of the same
snapshot are still processed normally". -/
theorem c7_counterexample :
    mapSnapshot
      [{ id := "x", taskType := 3, data := { eventType := none, commandType := none } },
       { id := "g", taskType := 1, data := { eventType := some "test", commandType := none } }]
      0 = Except.error "Unknown task type" := by
  rfl

/-- C7 (amended): a raw item whose kind is neither event (1) nor command (2)
makes `taskMapFunction` throw the logged `Unknown task type` error, so the
item is neither cached nor dispositioned; but since nothing catches the
throw per item, the mapping of the whole snapshot fails and the remaining
items of that snapshot are not processed in that pass either. -/
theorem c7_unknown_kind_aborts (docs : List IncomingTaskData) (now : Nat)
    (d : IncomingTaskData) (hd : d ∈ docs)
    (hbad : d.taskType ≠ 1 ∧ d.taskType ≠ 2) :
    taskMapFunction d now = Except.error "Unknown task type" ∧
    ∃ e, mapSnapshot docs now = Except.error e := by
  have hmap : taskMapFunction d now = Except.error "Unknown task type" := by
    rw [taskMapFunction]
    rw [if_neg (by simpa using hbad.1), if_neg (by simpa using hbad.2)]
  refine ⟨hmap, ?_⟩
  induction docs with
  | nil => cases hd
  | cons d' ds ih =>
    rcases List.mem_cons.1 hd with hd' | hd'
    · rw [mapSnapshot, ← hd', hmap]
      exact ⟨"Unknown task type", rfl⟩
    · obtain ⟨e, he⟩ := ih hd'
      rw [mapSnapshot]
      cases hm : taskMapFunction d' now with
      | error e' => exact ⟨e', rfl⟩
      | ok t =>
        rw [he]
        exact ⟨e, rfl⟩

/-- Witness for the amended C7 at a concrete snapshot. -/
theorem c7_unknown_kind_aborts_witness :
    ∃ e, mapSnapshot
      [{ id := "g", taskType := 1, data := { eventType := some "test", commandType := none } },
       { id := "y", taskType := 0, data := { eventType := none, commandType := none } }]
      3 = Except.error e := by
  exact (c7_unknown_kind_aborts
    [{ id := "g", taskType := 1, data := { eventType := some "test", commandType := none } },
     { id := "y", taskType := 0, data := { eventType := none, commandType := none } }]
    3 { id := "y", taskType := 0, data := { eventType := none, commandType := none } }
    (by decide) (by decide)).2

/-- C8: once the ids are mapped, a caller-facing operation routed through
`Client.callMethod` never rejects: whatever the underlying remote call does,
`confirmTaskEvents` resolves, and when the remote call fails the resolved
value is `undefined` while exactly one `error` event is emitted on the
client's emitter. -/
theorem c8_callmethod_never_rejects (tasks : List (Sum Task String))
    (ids : List String) (h : tasks.mapM getTaskIdFromTask = Except.ok ids) :
    (∀ remote : Except String Unit, confirmTaskEvents tasks remote =
      Except.ok (ids, callMethod "markTasksAsProcessed" remote)) ∧
    (∀ (R : Type) (method : String) (e : String),
      (@callMethod R method (Except.error e)).result = none ∧
      (@callMethod R method (Except.error e)).errorEvents =
        ["Error calling method " ++ method ++ ": " ++ e]) ∧
    (∀ (R : Type) (method : String) (v : R),
      @callMethod R method (Except.ok v) = { errorEvents := [], result := some v }) := by
  refine ⟨?_, ?_, ?_⟩
  · intro remote
    rw [confirmTaskEvents]
    rw [h]
    rfl
  · intro R method e
    exact ⟨rfl, rfl⟩
  · intro R method v
    rfl

/-- Witness for C8: a failing remote call resolves to `undefined` with one
emitted error, through `confirmTaskEvents` on a concrete task. -/
theorem c8_callmethod_never_rejects_witness :
    confirmTaskEvents [Sum.inl (Task.event "a" (some "test") 0)]
      (Except.error "boom") =
      Except.ok (["a"], callMethod "markTasksAsProcessed" (Except.error "boom")) := by
  exact (c8_callmethod_never_rejects [Sum.inl (Task.event "a" (some "test") 0)]
    ["a"] (by rfl)).1 (Except.error "boom")

/-- C9 counterexample: `refuseTasks` called with an empty list does not
throw - it resolves and issues the remote call with an empty id list -
contradicting "the operation throws synchronously and no remote call is
issued" for the confirm/refuse/defer family. -/
theorem c9_counterexample :
    refuseTasks [] (Except.ok ()) =
      Except.ok ([], { errorEvents := [], result := some () }) := by
  rfl

/-- C9 (amended): operations taking a table identity throw synchronously,
before any remote call, when neither `id` nor `externalId` is given;
`cancelOrderItems` and `upsertUniversalMenuItems` likewise throw on an empty
required list; but `confirmTaskEvents`, `refuseTasks` and `deferTasks`
perform no emptiness check - called with an empty list they issue the remote
call with an empty id list and do not throw. -/
theorem c9_preconditions (d : DataIdType)
    (hd : strFalsy d.id = true ∧ strFalsy d.externalId = true) :
    (∃ e, checkOptionalIdValidity d = Except.error e) ∧
    (∀ remote : Except String Unit, ∃ e, finishTable d remote = Except.error e) ∧
    (∀ (R : Type) (remote : Except String R), ∃ e, getOrderItems d remote = Except.error e) ∧
    (∀ remote : Except String Unit, ∃ e, markPaymentDone d remote = Except.error e) ∧
    (∀ (d2 : DataIdType) (remote : Except String Unit),
      ∃ e, cancelOrderItems d2 [] remote = Except.error e) ∧
    (∀ remote : Except String Unit,
      ∃ e, @upsertUniversalMenuItems Unit [] remote = Except.error e) ∧
    (∀ remote : Except String Unit, confirmTaskEvents [] remote =
      Except.ok ([], callMethod "markTasksAsProcessed" remote)) ∧
    (∀ remote : Except String Unit, refuseTasks [] remote =
      Except.ok ([], callMethod "refuseTasks" remote)) ∧
    (∀ remote : Except String Unit, deferTasks [] remote =
      Except.ok ([], callMethod "deferTasks" remote)) := by
  have hcheck : checkOptionalIdValidity d = Except.error "id or externalId is required" := by
    rw [checkOptionalIdValidity, if_pos (by rw [hd.1, hd.2]; rfl)]
  refine ⟨⟨_, hcheck⟩, ?_, ?_, ?_, ?_, ?_, ?_, ?_, ?_⟩
  · intro remote
    refine ⟨"id or externalId is required", ?_⟩
    rw [finishTable, hcheck]
    rfl
  · intro R remote
    refine ⟨"id or externalId is required", ?_⟩
    rw [getOrderItems, hcheck]
    rfl
  · intro remote
    refine ⟨"id or externalId is required", ?_⟩
    rw [markPaymentDone, hcheck]
    rfl
  · intro d2 remote
    cases hc : checkOptionalIdValidity d2 with
    | error e =>
      refine ⟨e, ?_⟩
      rw [cancelOrderItems, hc]
      rfl
    | ok u =>
      refine ⟨"cancelOrderItems method need valid orderItemIds", ?_⟩
      rw [cancelOrderItems, hc]
      rfl
  · intro remote
    exact ⟨"upsertUniversalMenuItems method need valid universalMenuItemsData", rfl⟩
  · intro remote
    rfl
  · intro remote
    rfl
  · intro remote
    rfl

/-- Witness for the amended C9: `finishTable` with both ids missing throws
synchronously. -/
theorem c9_preconditions_witness :
    ∃ e, finishTable { id := none, externalId := none } (Except.ok ()) =
      Except.error e := by
  exact (c9_preconditions { id := none, externalId := none }
    (by decide)).2.1 (Except.ok ())

example : processTasks [] [Task.event "a" (some "test") 5] =
    { cache := [Task.event "a" (some "test") 5],
      emitted := some [Task.event "a" (some "test") 5],
      refuseCall := none, confirmCall := none } := by decide

example : processTasks [] [Task.event "b" (some "bogus") 5] =
    { cache := [], emitted := none,
      refuseCall := none, confirmCall := some ["b"] } := by decide

example : processTasks [] [Task.command "c" none 5] =
    { cache := [], emitted := none,
      refuseCall := some ["c"], confirmCall := none } := by decide

end Swipelime
